import Mathlib

/-!
Verification development for the typhoon dataset module
(src/models/src/dataseters/GRUs.py).

The embedding below models:
* the per-event valid-window count computed in TyDataset.__init__
  (lines 81-87): the Python expression
  int((frame_e - frame_s).days*24*6 + (frame_e - frame_s).seconds/600) + 1,
  where the timedelta normalizes days by floor division with a
  nonnegative seconds field, and int() truncates toward zero;
* the cumulative index table idx_df (start/end global indices per event);
* the scan in TyDataset.__getitem__ (lines 95-106): an upper-bound-only
  assertion followed by a linear scan over the table rows;
* the train/test event selection (lines 58-75);
* the per-sample assembly (lines 113-186), with the external readers of
  the spec (radar files, ty-info table, height grid) passed in as
  function parameters, and the channel-write semantics of the numpy
  slice assignments made explicit;
* the Normalize transform (lines 199-249).

Timestamps are modelled as integers counting minutes; all numeric grid
values are rationals.  numpy elementwise division is modelled with an
Option, none standing for the non-finite (inf/NaN) results numpy
produces on division by zero (numpy raises no exception there).  The
float evaluation of delta.days*24*6 + delta.seconds/600 is exact for
every realistic magnitude (delta.seconds/600 carries denominator at
most 600 and the integer part stays far below 2^52), so it is modelled
by exact rational arithmetic.
-/

/-- Errors a call can surface.  indexOutOfRange models the AssertionError
of __getitem__ line 97 ("Index is out of the range of the data!");
nameError models a Python NameError; invalidArgument is the
configuration-error condition of the spec taxonomy (no code path in the
source ever produces it). -/
inductive PyErr
  | indexOutOfRange
  | nameError
  | invalidArgument
deriving DecidableEq

deriving instance DecidableEq for Except

/-- Python int() applied to an exact rational value: truncation toward
zero. -/
def pyTrunc (q : ℚ) : Int := if 0 ≤ q then ⌊q⌋ else ⌈q⌉

/-- numpy elementwise division: a zero denominator silently yields a
non-finite value (inf or NaN), modelled as none; no exception is
raised. -/
def numpyDiv (x d : ℚ) : Option ℚ := if d = 0 then none else some (x / d)

/-- One typhoon event: time of issuing and time of canceling, in
minutes. -/
structure Event where
  issue : Int
  cancel : Int
deriving DecidableEq

/-- The days field of a Python timedelta of m minutes (timedelta
normalizes days toward minus infinity, i.e. floor division). -/
def timedeltaDays (m : Int) : Int := Int.fdiv (60 * m) 86400

/-- The seconds field of a Python timedelta of m minutes: the
nonnegative remainder after removing whole days. -/
def timedeltaSeconds (m : Int) : Int := 60 * m - 86400 * timedeltaDays m

/-- The count expression of __init__ line 85 for a time difference of m
minutes: int(delta.days*24*6 + delta.seconds/600) + 1. -/
def frameCountExpr (m : Int) : Int :=
  pyTrunc ((timedeltaDays m * 144 : ℚ) + (timedeltaSeconds m : ℚ) / 600) + 1

/-- The per-event valid-window count computed at construction: the count
expression applied to frame_e - frame_s, where frame_s = issue and
frame_e = cancel - (input_frames + target_frames - 1) ten-minute steps
(lines 82-85). -/
def eventCount (inF tgF : Nat) (e : Event) : Int :=
  frameCountExpr (e.cancel - e.issue - 10 * ((inF : Int) + (tgF : Int) - 1))

/-- The valid-window count as the spec words it (section 4.2):
floor((adjusted_cancel - issue) / step) + 1 with step = 10 minutes,
written with Int division, which is floor division for the positive
divisor 10.  This definition follows the SPEC text, for comparison with
eventCount, which follows the source. -/
def specValidCount (inF tgF : Nat) (e : Event) : Int :=
  (e.cancel - e.issue - 10 * ((inF : Int) + (tgF : Int) - 1)) / 10 + 1

/-- The index table idx_df built by the loop of lines 81-87: one row per
event, in selection order, holding (event, starting idx, ending idx);
tmp is the running cumulative count. -/
def buildIdx (inF tgF : Nat) : List Event → Int → List (Event × Int × Int)
  | [], _ => []
  | e :: es, tmp =>
    (e, tmp, tmp + eventCount inF tgF e - 1) ::
      buildIdx inF tgF es (tmp + eventCount inF tgF e)

/-- self.total_frames after the construction loop: the final value of
the running sum tmp, i.e. the sum of all per-event counts. -/
def totalFrames (inF tgF : Nat) (events : List Event) : Int :=
  (events.map (eventCount inF tgF)).sum

/-- The starting global index of the k-th selected event: the sum of the
counts of the events preceding it in selection order. -/
def startOf (inF tgF : Nat) : List Event → Nat → Int
  | _, 0 => 0
  | [], _ + 1 => 0
  | e :: es, k + 1 => eventCount inF tgF e + startOf inF tgF es k

/-- The scan of __getitem__ lines 99-105: walk the table rows in order;
skip a row while idx exceeds its ending index, otherwise return the
event of that row together with tmp_idx = idx - starting idx.  The returned
Nat is the position of the owning row in selection order.  Falling off
the end models the Python loop finishing without returning (the method
then returns None). -/
def resolveP : List (Event × Int × Int) → Int → Option (Nat × Event × Int)
  | [], _ => none
  | (e, s, en) :: rest, idx =>
    if en < idx then (resolveP rest idx).map (fun p => (p.1 + 1, p.2))
    else some (0, e, idx - s)

/-- Index resolution of __getitem__ including the assertion of line 97,
which checks only the upper bound idx < self.total_frames. -/
def getItemResolve (inF tgF : Nat) (events : List Event) (idx : Int) :
    Except PyErr (Option (Nat × Event × Int)) :=
  if idx < totalFrames inF tgF events then
    Except.ok (resolveP (buildIdx inF tgF events 0) idx)
  else Except.error PyErr.indexOutOfRange

/-- Concrete event A of the spec scenario: issued 2020-01-01T00:00,
canceled two hours later (times in minutes). -/
def evA : Event := ⟨0, 120⟩

/-- Concrete event B of the spec scenario: issued 2020-02-01T00:00 (31
days after A), canceled one hour later. -/
def evB : Event := ⟨44640, 44700⟩

/-- int(len(ty_list)/4*3) of lines 64 and 71.  The Python float
evaluation n/4*3 is exact (n/4 is exactly representable and the product
with 3 stays far below 2^52), so int() truncation gives ⌊3n/4⌋, which
is Nat division. -/
def splitCount (n : Nat) : Nat := 3 * n / 4

/-- events_num of lines 62-75: the slice of the seeded permutation
rand_tys kept for the training set (train = true, a prefix of the
permutation) or the testing set (train = false, the matching suffix).
trainNum none models train_num=None, where the default split point
int(n/4*3) is used.  The permutation itself is produced by
np.random.choice(n, n, replace=False) after np.random.seed(1): an
external generator that, by the numpy contract, returns one fixed
permutation of [0, n) for each n, so it enters the model as a parameter
constrained to be a permutation of List.range n. -/
def selectedIdx (perm : List Nat) (n : Nat) (train : Bool) (trainNum : Option Nat) :
    List Nat :=
  match train, trainNum with
  | true, none => perm.take (splitCount n)
  | true, some t => perm.take t
  | false, none => perm.drop (splitCount n)
  | false, some t => perm.drop t

/-- Configuration attributes copied onto the dataset in __init__
(lines 41-54) that __getitem__ reads.  Spatial shapes are stored as
separate width/height fields (I_shape[0] is the width, I_shape[1] the
height, and likewise for O_shape and F_shape); ty_cols is the number of
feature columns of the per-event ty-info table after its Time index. -/
structure TyConfig where
  input_frames : Nat
  target_frames : Nat
  input_channels : Nat
  input_with_grid : Bool
  target_RAD : Bool
  catcher_location : Bool
  I_w : Nat
  I_h : Nat
  O_w : Nat
  O_h : Nat
  F_w : Nat
  F_h : Nat
  ty_cols : Nat

/-- The external readers of the spec interface, as pure functions of
the timestamp (minutes) and grid coordinates (row, column): radI is the
RAD pickle cropped to the input window (line 123), radFull the same
pickle at full native resolution (line 137, no crop), targetRead the
RAD-or-QPE pickle cropped to the forecast window (line 174), tyRow the
ty-info table row at a timestamp (full column set, lines 150-158), and
heightGrid the height pickle cropped to the input window (line 176). -/
structure Readers where
  radI : Int → Nat → Nat → ℚ
  radFull : Int → Nat → Nat → ℚ
  targetRead : Bool → Int → Nat → Nat → ℚ
  tyRow : Int → Nat → ℚ
  heightGrid : Nat → Nat → ℚ

/-- numpy slice assignment arr[c, :, :] = v on a channel-indexed grid
stack: channel c now reads from v, all other channels are unchanged. -/
def writeCh (m : Nat → Nat → Nat → ℚ) (c : Nat) (v : Nat → Nat → ℚ) :
    Nat → Nat → Nat → ℚ :=
  fun c2 y x => if c2 = c then v y x else m c2 y x

/-- gird_x of np.meshgrid(np.arange(0, W), np.arange(0, H)): entry
(y, x) holds the column index x. -/
def gridX : Nat → Nat → ℚ := fun _ x => (x : ℚ)

/-- gird_y of np.meshgrid: entry (y, x) holds the row index y. -/
def gridY : Nat → Nat → ℚ := fun y _ => (y : ℚ)

/-- One input frame (lines 119-131): start from the zero-initialized
slice, write the RAD field at channel 0, then c is incremented and, when
grid channels are enabled, gird_x goes to channel 1 and gird_y to
channel 2. -/
def inputFrame (cfg : TyConfig) (rd : Readers) (t : Int) : Nat → Nat → Nat → ℚ :=
  let m0 : Nat → Nat → Nat → ℚ := fun _ _ _ => 0
  let m1 := writeCh m0 0 (rd.radI t)
  if cfg.input_with_grid then writeCh (writeCh m1 1 gridX) 2 gridY else m1

/-- The radar_map block (lines 133-144): start from the zero-initialized
array, write the full-resolution RAD field at channel 0; here c is NOT
incremented after the RAD write, so when grid channels are enabled
gird_x is written to channel 0 again (overwriting the RAD field), c is
then incremented and gird_y goes to channel 1; channel 2 keeps its
zeros. -/
def radarMapBuild (cfg : TyConfig) (rd : Readers) (t : Int) : Nat → Nat → Nat → ℚ :=
  let m0 : Nat → Nat → Nat → ℚ := fun _ _ _ => 0
  let m1 := writeCh m0 0 (rd.radFull t)
  if cfg.input_with_grid then writeCh (writeCh m1 0 gridX) 1 gridY else m1

/-- np.min over a materialized list of grid values (0 on an empty grid,
which numpy would reject; the claims never use an empty grid). -/
def npMin : List ℚ → ℚ
  | [] => 0
  | a :: l => l.foldl min a

/-- np.max over a materialized list of grid values. -/
def npMax : List ℚ → ℚ
  | [] => 0
  | a :: l => l.foldl max a

/-- All values of an h-by-w grid, row-major. -/
def gridVals (g : Nat → Nat → ℚ) (h w : Nat) : List ℚ :=
  (List.range h).flatMap (fun y => (List.range w).map (fun x => g y x))

/-- The ty-info column selection of lines 159-162: with
catcher_location the columns [0, 1, last] are kept; otherwise the slice
0:-1 keeps the columns in place and drops the last (positions at or
beyond ncols - 1 are then outside the array and never read
downstream). -/
def selectTyCols (catcher : Bool) (ncols : Nat) (row : Nat → ℚ) : Nat → ℚ :=
  if catcher then
    fun c => if c = 0 then row 0 else if c = 1 then row 1 else row (ncols - 1)
  else
    row

/-- The sample dict assembled by __getitem__ (line 180).  inputs is
indexed (frame, channel, row, column); targets (frame, row, column);
ty_infos (row, column); radar_map (channel, row, column); current_time
is the timestamp of the last input frame in minutes (the source formats
it as a string); height is the min-max normalized terrain grid. -/
structure Sample where
  inputs : Nat → Nat → Nat → Nat → ℚ
  targets : Nat → Nat → Nat → ℚ
  ty_infos : Nat → Nat → ℚ
  radar_map : Nat → Nat → Nat → ℚ
  current_time : Int
  height : Nat → Nat → ℚ

/-- Sample assembly for the event whose starting time is t0, at local
offset off (lines 108-180): input frames at t0 + 10*(off+j), radar_map
at the last input timestamp, then the offset advances by input_frames
(line 147); ty-info rows cover the target window timestamps and go
through the column selection; target frames read RAD or QPE per
target_RAD; height is min-max normalized with the min and
max of the grid itself over the input window (a flat grid would make numpy divide by zero
here; no claim exercises that). -/
def assembleSample (cfg : TyConfig) (rd : Readers) (t0 off : Int) : Sample :=
  let current_time := t0 + 10 * (off + (cfg.input_frames : Int) - 1)
  let inputs := fun (j : Nat) => inputFrame cfg rd (t0 + 10 * (off + (j : Int)))
  let radar_map := radarMapBuild cfg rd (t0 + 10 * (off + (cfg.input_frames : Int) - 1))
  let off2 := off + (cfg.input_frames : Int)
  let ty_infos := fun (r c : Nat) =>
    selectTyCols cfg.catcher_location cfg.ty_cols
      (rd.tyRow (t0 + 10 * (off2 + (r : Int)))) c
  let targets := fun (j : Nat) => rd.targetRead cfg.target_RAD (t0 + 10 * (off2 + (j : Int)))
  let hvals := gridVals rd.heightGrid cfg.I_h cfg.I_w
  let height := fun y x =>
    (rd.heightGrid y x - npMin hvals) / (npMax hvals - npMin hvals)
  { inputs := inputs, targets := targets, ty_infos := ty_infos,
    radar_map := radar_map, current_time := current_time, height := height }

/-- The mutable state of a TyDataset instance: every configuration
attribute is written once in __init__ and only read afterwards; the one
attribute __getitem__ writes is self.sample (lines 180-183). -/
structure DState where
  sample : Option Sample

/-- Full __getitem__ (lines 95-186): the upper-bound assertion, the
scan, sample assembly, the optional transform, the write of
self.sample, and the return of self.sample.  The result pairs the
post-call instance state with the returned value (ok none models the
Python loop falling through and returning None). -/
def getItemFull (cfg : TyConfig) (rd : Readers) (transform : Option (Sample → Sample))
    (events : List Event) (st : DState) (idx : Int) :
    DState × Except PyErr (Option Sample) :=
  if idx < totalFrames cfg.input_frames cfg.target_frames events then
    match resolveP (buildIdx cfg.input_frames cfg.target_frames events 0) idx with
    | some (_, e, off) =>
      let s0 := assembleSample cfg rd e.issue off
      let s := match transform with
               | some f => f s0
               | none => s0
      (⟨some s⟩, Except.ok (some s))
    | none => (st, Except.ok none)
  else (st, Except.error PyErr.indexOutOfRange)

/-- The per-field normalization statistics object (max_values or
min_values of Normalize): a pandas Series with labelled scalar entries
RAD and QPE and, from the label Lat onward, the per-column vector used
for the ty-info normalization (.loc applied from Lat, line 244-245). -/
structure StatsSeries where
  RAD : ℚ
  QPE : ℚ
  latOnward : Nat → ℚ

/-- The attributes Normalize.__init__ stores (lines 203-212). -/
structure NormalizeArgs where
  max_values : StatsSeries
  min_values : StatsSeries
  normalize_target : Bool
  input_with_grid : Bool
  target_RAD : Bool
  catcher_location : Bool
  I_w : Nat
  I_h : Nat

/-- The input normalization of lines 217-224: channel 0 is min-max
scaled with the RAD bounds; when grid channels are enabled channel 1 is
divided by I_shape[0] and channel 2 by I_shape[1]; other channels are
left as they are. -/
def normInputs (args : NormalizeArgs) (inp : Nat → Nat → Nat → Nat → ℚ) :
    Nat → Nat → Nat → Nat → Option ℚ :=
  fun j c y x =>
    if c = 0 then
      numpyDiv (inp j 0 y x - args.min_values.RAD)
        (args.max_values.RAD - args.min_values.RAD)
    else if args.input_with_grid then
      if c = 1 then numpyDiv (inp j 1 y x) ((args.I_w : ℚ))
      else if c = 2 then numpyDiv (inp j 2 y x) ((args.I_h : ℚ))
      else some (inp j c y x)
    else some (inp j c y x)

/-- The target normalization of lines 227-231: min-max scaled with the
RAD or QPE bounds only when normalize_target is set, otherwise left
unscaled. -/
def normTargets (args : NormalizeArgs) (tg : Nat → Nat → Nat → ℚ) :
    Nat → Nat → Nat → Option ℚ :=
  if args.normalize_target then
    if args.target_RAD then
      fun j y x => numpyDiv (tg j y x - args.min_values.RAD)
        (args.max_values.RAD - args.min_values.RAD)
    else
      fun j y x => numpyDiv (tg j y x - args.min_values.QPE)
        (args.max_values.QPE - args.min_values.QPE)
  else fun j y x => some (tg j y x)

/-- The radar_map normalization of lines 234-241, mirroring the input
normalization on the single frame. -/
def normRadarMap (args : NormalizeArgs) (rm : Nat → Nat → Nat → ℚ) :
    Nat → Nat → Nat → Option ℚ :=
  fun c y x =>
    if c = 0 then
      numpyDiv (rm 0 y x - args.min_values.RAD)
        (args.max_values.RAD - args.min_values.RAD)
    else if args.input_with_grid then
      if c = 1 then numpyDiv (rm 1 y x) ((args.I_w : ℚ))
      else if c = 2 then numpyDiv (rm 2 y x) ((args.I_h : ℚ))
      else some (rm c y x)
    else some (rm c y x)

/-- The ty-info normalization of lines 244-246: each column scaled
elementwise with its own bounds from the Lat-onward stats vectors. -/
def normTyInfos (args : NormalizeArgs) (ty : Nat → Nat → ℚ) :
    Nat → Nat → Option ℚ :=
  fun r c =>
    numpyDiv (ty r c - args.min_values.latOnward c)
      (args.max_values.latOnward c - args.min_values.latOnward c)

/-- The normalized sample Normalize.__call__ would return: the
normalized arrays are Option-valued because numpy division can have
produced non-finite entries. -/
structure NSample where
  inputs : Nat → Nat → Nat → Nat → Option ℚ
  targets : Nat → Nat → Nat → Option ℚ
  ty_infos : Nat → Nat → Option ℚ
  radar_map : Nat → Nat → Nat → Option ℚ
  current_time : Int
  height : Nat → Nat → ℚ

/-- The local bindings of Normalize.__call__ never include a name
height: the body binds input_data, target_data, ty_infos, radar_map,
index, min_values and max_values only, so looking the name height up at
the return statement (line 249) finds nothing. -/
def heightLocal : Option (Nat → Nat → ℚ) := none

/-- Normalize.__call__ (lines 214-249): all four normalizations are
computed, then the return statement builds the result dict, whose
second entry evaluates the unbound name height: CPython raises
NameError there, so no sample is ever returned.  (Were height bound,
the dict of line 249 would package the normalized arrays as shown in
the unreachable branch.) -/
def normalizeCall (args : NormalizeArgs) (sample : Sample) : Except PyErr NSample :=
  match heightLocal with
  | none => Except.error PyErr.nameError
  | some h =>
      Except.ok
        { inputs := normInputs args sample.inputs
          targets := normTargets args sample.targets
          ty_infos := normTyInfos args sample.ty_infos
          radar_map := normRadarMap args sample.radar_map
          current_time := sample.current_time
          height := h }

/-- The Python type of a value supplied as max_values or min_values:
a pandas Series, the built-in list, or anything else. -/
inductive PyType
  | series
  | listT
  | other
deriving DecidableEq

/-- A Python value as the operand of `or` in the assert of lines
204-205: either a Bool (the comparison result) or a class object (the
built-in list); a class object is always truthy. -/
inductive PyVal
  | boolVal (b : Bool)
  | classVal

/-- Python truthiness of the modelled values. -/
def pyTruthy : PyVal → Bool
  | .boolVal b => b
  | .classVal => true

/-- Python `a or b`: returns a when a is truthy, otherwise b. -/
def pyOr (a b : PyVal) : PyVal := if pyTruthy a then a else b

/-- The assert condition of Normalize.__init__ lines 204-205:
`type(x) == pd.Series or list` parses as
(type(x) == pd.Series) or (list) — the left operand is the comparison
result, the right operand is the class object list itself. -/
def statsTypeCheckCond (t : PyType) : Bool :=
  pyTruthy (pyOr (PyVal.boolVal (t == PyType.series)) PyVal.classVal)

/-- Concrete configuration for evaluations: 3 input frames, 2 target
frames, 3 input channels with grid channels enabled. -/
def cfg6 : TyConfig :=
  { input_frames := 3, target_frames := 2, input_channels := 3,
    input_with_grid := true, target_RAD := false, catcher_location := false,
    I_w := 4, I_h := 4, O_w := 2, O_h := 2, F_w := 2, F_h := 2, ty_cols := 5 }

/-- Concrete readers for evaluations: the RAD field reads 7 everywhere,
everything else reads 0. -/
def rd6 : Readers :=
  { radI := fun _ _ _ => 7, radFull := fun _ _ _ => 7,
    targetRead := fun _ _ _ _ => 0, tyRow := fun _ _ => 0,
    heightGrid := fun _ _ => 0 }

/-- Degenerate normalization statistics: max_RAD = min_RAD = 5. -/
def argsEq : NormalizeArgs :=
  { max_values := ⟨5, 9, fun _ => 1⟩, min_values := ⟨5, 0, fun _ => 0⟩,
    normalize_target := true, input_with_grid := true, target_RAD := true,
    catcher_location := false, I_w := 4, I_h := 4 }

/-- A concrete all-zero sample. -/
def sample0 : Sample :=
  { inputs := fun _ _ _ _ => 0, targets := fun _ _ _ => 0,
    ty_infos := fun _ _ => 0, radar_map := fun _ _ _ => 0,
    current_time := 0, height := fun _ _ => 0 }

/-! Characterization of the count expression: the exact value of the
Python float expression is the rational m/10, and int() truncation
toward zero turns it into Int.tdiv. -/

theorem timedelta_expr_eq (m : Int) :
    (timedeltaDays m * 144 : ℚ) + (timedeltaSeconds m : ℚ) / 600 = (m : ℚ) / 10 := by
  unfold timedeltaSeconds
  push_cast
  field_simp
  ring

theorem pyTrunc_intCast_div_ten (m : Int) : pyTrunc ((m : ℚ) / 10) = Int.tdiv m 10 := by
  unfold pyTrunc
  rcases le_or_lt 0 m with hm | hm
  · have h0 : (0 : ℚ) ≤ (m : ℚ) / 10 := by positivity
    rw [if_pos h0]
    have h10 : ((10 : ℕ) : ℚ) = (10 : ℚ) := by norm_num
    rw [← h10, Rat.floor_intCast_div_natCast]
    rw [Int.tdiv_eq_ediv hm (by norm_num)]
    rfl
  · have h0 : ¬ (0 : ℚ) ≤ (m : ℚ) / 10 := by
      simp only [not_le]
      have hq : (m : ℚ) < 0 := by exact_mod_cast hm
      exact div_neg_of_neg_of_pos hq (by norm_num)
    rw [if_neg h0]
    have hneg : ((m : ℚ) / 10) = -(((-m : ℤ) : ℚ) / 10) := by push_cast; ring
    rw [hneg, Int.ceil_neg]
    have h10 : ((10 : ℕ) : ℚ) = (10 : ℚ) := by norm_num
    rw [← h10, Rat.floor_intCast_div_natCast]
    have hsw : Int.tdiv m 10 = -(Int.tdiv (-m) 10) := by
      rw [Int.neg_tdiv, neg_neg]
    rw [hsw, Int.tdiv_eq_ediv (by omega) (by norm_num)]
    rfl

theorem frameCountExpr_eq (m : Int) : frameCountExpr m = Int.tdiv m 10 + 1 := by
  unfold frameCountExpr
  rw [timedelta_expr_eq, pyTrunc_intCast_div_ten]

theorem eventCount_tdiv (inF tgF : Nat) (e : Event) :
    eventCount inF tgF e =
      Int.tdiv (e.cancel - e.issue - 10 * ((inF : Int) + (tgF : Int) - 1)) 10 + 1 := by
  unfold eventCount
  rw [frameCountExpr_eq]

/-! Structure of the index table. -/

theorem totalFrames_nil (inF tgF : Nat) : totalFrames inF tgF [] = 0 := rfl

theorem totalFrames_cons (inF tgF : Nat) (e : Event) (es : List Event) :
    totalFrames inF tgF (e :: es) = eventCount inF tgF e + totalFrames inF tgF es := by
  simp [totalFrames]

theorem startOf_zero (inF tgF : Nat) (events : List Event) :
    startOf inF tgF events 0 = 0 := by
  cases events <;> rfl

theorem startOf_nil (inF tgF k : Nat) : startOf inF tgF [] k = 0 := by
  cases k <;> rfl

theorem startOf_cons (inF tgF : Nat) (e : Event) (es : List Event) (k : Nat) :
    startOf inF tgF (e :: es) (k + 1) = eventCount inF tgF e + startOf inF tgF es k := rfl

theorem startOf_nonneg (inF tgF : Nat) :
    ∀ (events : List Event) (k : Nat),
      (∀ e ∈ events, 0 ≤ eventCount inF tgF e) → 0 ≤ startOf inF tgF events k := by
  intro events
  induction events with
  | nil => intro k _; rw [startOf_nil]
  | cons e es ih =>
    intro k h
    cases k with
    | zero => rw [startOf_zero]
    | succ k =>
      rw [startOf_cons]
      have h1 : 0 ≤ eventCount inF tgF e := h e (List.mem_cons_self e es)
      have h2 : 0 ≤ startOf inF tgF es k :=
        ih k (fun x hx => h x (List.mem_cons_of_mem e hx))
      omega

theorem startOf_mono (inF tgF : Nat) :
    ∀ (events : List Event) (a b : Nat),
      (∀ e ∈ events, 0 ≤ eventCount inF tgF e) → a ≤ b →
      startOf inF tgF events a ≤ startOf inF tgF events b := by
  intro events
  induction events with
  | nil => intro a b _ _; rw [startOf_nil, startOf_nil]
  | cons e es ih =>
    intro a b h hab
    cases a with
    | zero =>
      rw [startOf_zero]
      exact startOf_nonneg inF tgF (e :: es) b h
    | succ a =>
      cases b with
      | zero => omega
      | succ b =>
        rw [startOf_cons, startOf_cons]
        have := ih a b (fun x hx => h x (List.mem_cons_of_mem e hx)) (by omega)
        omega

theorem startOf_succ (inF tgF : Nat) :
    ∀ (events : List Event) (k : Nat) (h : k < events.length),
      startOf inF tgF events (k + 1) =
        startOf inF tgF events k + eventCount inF tgF (events.get ⟨k, h⟩) := by
  intro events
  induction events with
  | nil => intro k h; simp at h
  | cons e es ih =>
    intro k h
    cases k with
    | zero =>
      rw [startOf_cons, startOf_zero, startOf_zero]
      simp [List.get]
    | succ k =>
      rw [startOf_cons, startOf_cons, ih k (by simpa using h)]
      simp [List.get]
      ring

theorem startOf_length_eq_total (inF tgF : Nat) :
    ∀ events : List Event,
      startOf inF tgF events events.length = totalFrames inF tgF events := by
  intro events
  induction events with
  | nil => rw [startOf_nil, totalFrames_nil]
  | cons e es ih =>
    show startOf inF tgF (e :: es) (es.length + 1) = _
    rw [startOf_cons, totalFrames_cons, ih]

theorem buildIdx_length (inF tgF : Nat) :
    ∀ (events : List Event) (tmp : Int),
      (buildIdx inF tgF events tmp).length = events.length := by
  intro events
  induction events with
  | nil => intro tmp; rfl
  | cons e es ih => intro tmp; simp [buildIdx, ih]

theorem buildIdx_get (inF tgF : Nat) :
    ∀ (events : List Event) (tmp : Int) (k : Nat) (h : k < events.length)
      (h2 : k < (buildIdx inF tgF events tmp).length),
      (buildIdx inF tgF events tmp).get ⟨k, h2⟩ =
        (events.get ⟨k, h⟩, tmp + startOf inF tgF events k,
          tmp + startOf inF tgF events (k + 1) - 1) := by
  intro events
  induction events with
  | nil => intro tmp k h; simp at h
  | cons e es ih =>
    intro tmp k h h2
    cases k with
    | zero =>
      simp only [buildIdx, List.get]
      rw [startOf_zero, startOf_cons, startOf_zero]
      simp
    | succ k =>
      simp only [buildIdx, List.get]
      rw [ih (tmp + eventCount inF tgF e) k (by simpa using h) (by
        rw [buildIdx_length inF tgF es (tmp + eventCount inF tgF e)]
        simpa using h)]
      rw [startOf_cons, startOf_cons]
      simp [add_assoc]

theorem resolveP_found (inF tgF : Nat) :
    ∀ (events : List Event) (tmp idx : Int),
      (∀ e ∈ events, 0 < eventCount inF tgF e) →
      tmp ≤ idx → idx < tmp + totalFrames inF tgF events →
      ∃ (k : Nat) (h : k < events.length),
        resolveP (buildIdx inF tgF events tmp) idx =
          some (k, events.get ⟨k, h⟩, idx - (tmp + startOf inF tgF events k)) ∧
        tmp + startOf inF tgF events k ≤ idx ∧
        idx < tmp + startOf inF tgF events (k + 1) := by
  intro events
  induction events with
  | nil =>
    intro tmp idx _ h1 h2
    rw [totalFrames_nil] at h2
    omega
  | cons e es ih =>
    intro tmp idx hpos h1 h2
    by_cases hc : tmp + eventCount inF tgF e - 1 < idx
    · have hpos' : ∀ x ∈ es, 0 < eventCount inF tgF x :=
        fun x hx => hpos x (List.mem_cons_of_mem e hx)
      have htot : idx < (tmp + eventCount inF tgF e) + totalFrames inF tgF es := by
        rw [totalFrames_cons] at h2
        omega
      obtain ⟨k, hk, hres, hlo, hhi⟩ :=
        ih (tmp + eventCount inF tgF e) idx hpos' (by omega) htot
      refine ⟨k + 1, by simpa using Nat.succ_lt_succ hk, ?_, ?_, ?_⟩
      · show resolveP ((e, tmp, tmp + eventCount inF tgF e - 1) :: _) idx = _
        have harr : tmp + startOf inF tgF (e :: es) (k + 1) =
            tmp + eventCount inF tgF e + startOf inF tgF es k := by
          rw [startOf_cons]; ring
        rw [resolveP, if_pos hc, hres, harr]
        rfl
      · rw [startOf_cons]; omega
      · rw [startOf_cons]; omega
    · refine ⟨0, by simp, ?_, ?_, ?_⟩
      · show resolveP ((e, tmp, tmp + eventCount inF tgF e - 1) :: _) idx = _
        have harr : tmp + startOf inF tgF (e :: es) 0 = tmp := by
          rw [startOf_zero]; ring
        rw [resolveP, if_neg hc, harr]
        rfl
      · rw [startOf_zero]; omega
      · rw [startOf_cons, startOf_zero]; omega

theorem startOf_interval_uniq (inF tgF : Nat) (events : List Event)
    (hpos : ∀ e ∈ events, 0 < eventCount inF tgF e) :
    ∀ (k1 k2 : Nat) (idx : Int), k1 < events.length → k2 < events.length →
      startOf inF tgF events k1 ≤ idx → idx < startOf inF tgF events (k1 + 1) →
      startOf inF tgF events k2 ≤ idx → idx < startOf inF tgF events (k2 + 1) →
      k1 = k2 := by
  have hnn : ∀ e ∈ events, 0 ≤ eventCount inF tgF e :=
    fun e he => le_of_lt (hpos e he)
  intro k1 k2 idx hk1 hk2 hlo1 hhi1 hlo2 hhi2
  rcases Nat.lt_trichotomy k1 k2 with h | h | h
  · exfalso
    have : startOf inF tgF events (k1 + 1) ≤ startOf inF tgF events k2 :=
      startOf_mono inF tgF events (k1 + 1) k2 hnn (by omega)
    omega
  · exact h
  · exfalso
    have : startOf inF tgF events (k2 + 1) ≤ startOf inF tgF events k1 :=
      startOf_mono inF tgF events (k2 + 1) k1 hnn (by omega)
    omega


/-- C1: for every dataset built from an event selection whose per-event
valid window counts are all positive, the index table rows are exactly
(event, startOf k, startOf (k+1) - 1) in selection order (hence
contiguous, starting at 0, and non-overlapping), the union of the row
ranges is exactly [0, total_samples), the __getitem__ scan resolves each
in-range idx to exactly one (position, event, offset) with a valid local
offset, the resolution map is injective, and every (event position,
valid offset) pair is hit: a bijection. -/
theorem c1_index_table_bijection (inF tgF : Nat) (events : List Event)
    (hpos : ∀ e ∈ events, 0 < eventCount inF tgF e) :
    ((buildIdx inF tgF events 0).length = events.length) ∧
    (∀ (k : Nat) (h : k < events.length) (h2 : k < (buildIdx inF tgF events 0).length),
      (buildIdx inF tgF events 0).get ⟨k, h2⟩ =
        (events.get ⟨k, h⟩, startOf inF tgF events k, startOf inF tgF events (k + 1) - 1)) ∧
    (∀ idx : Int, (0 ≤ idx ∧ idx < totalFrames inF tgF events) ↔
      ∃ k : Nat, k < events.length ∧ startOf inF tgF events k ≤ idx ∧
        idx < startOf inF tgF events (k + 1)) ∧
    (∀ (k1 k2 : Nat) (idx : Int), k1 < events.length → k2 < events.length →
      startOf inF tgF events k1 ≤ idx → idx < startOf inF tgF events (k1 + 1) →
      startOf inF tgF events k2 ≤ idx → idx < startOf inF tgF events (k2 + 1) →
      k1 = k2) ∧
    (∀ idx : Int, 0 ≤ idx → idx < totalFrames inF tgF events →
      ∃ (k : Nat) (h : k < events.length),
        getItemResolve inF tgF events idx =
          Except.ok (some (k, events.get ⟨k, h⟩, idx - startOf inF tgF events k)) ∧
        0 ≤ idx - startOf inF tgF events k ∧
        idx - startOf inF tgF events k < eventCount inF tgF (events.get ⟨k, h⟩)) ∧
    (∀ idx1 idx2 : Int, 0 ≤ idx1 → idx1 < totalFrames inF tgF events →
      0 ≤ idx2 → idx2 < totalFrames inF tgF events →
      getItemResolve inF tgF events idx1 = getItemResolve inF tgF events idx2 →
      idx1 = idx2) ∧
    (∀ (k : Nat) (h : k < events.length) (off : Int), 0 ≤ off →
      off < eventCount inF tgF (events.get ⟨k, h⟩) →
      0 ≤ startOf inF tgF events k + off ∧
      startOf inF tgF events k + off < totalFrames inF tgF events ∧
      getItemResolve inF tgF events (startOf inF tgF events k + off) =
        Except.ok (some (k, events.get ⟨k, h⟩, off))) := by
  have hnn : ∀ e ∈ events, 0 ≤ eventCount inF tgF e :=
    fun e he => le_of_lt (hpos e he)
  have htot := startOf_length_eq_total inF tgF events
  refine ⟨buildIdx_length inF tgF events 0, ?_, ?_, ?_, ?_, ?_, ?_⟩
  · intro k h h2
    have := buildIdx_get inF tgF events 0 k h h2
    simpa using this
  · intro idx
    constructor
    · rintro ⟨h0, hlt⟩
      obtain ⟨k, hk, _, hlo, hhi⟩ :=
        resolveP_found inF tgF events 0 idx hpos (by omega) (by omega)
      exact ⟨k, hk, by omega, by omega⟩
    · rintro ⟨k, hk, hlo, hhi⟩
      have hs0 := startOf_nonneg inF tgF events k hnn
      have hmono := startOf_mono inF tgF events (k + 1) events.length hnn hk
      omega
  · exact startOf_interval_uniq inF tgF events hpos
  · intro idx h0 hlt
    obtain ⟨k, hk, hres, hlo, hhi⟩ :=
      resolveP_found inF tgF events 0 idx hpos (by omega) (by omega)
    have hsucc := startOf_succ inF tgF events k hk
    refine ⟨k, hk, ?_, by omega, by omega⟩
    rw [getItemResolve, if_pos hlt, hres]
    have hz : idx - (0 + startOf inF tgF events k) = idx - startOf inF tgF events k := by
      ring
    rw [hz]
  · intro idx1 idx2 h01 hl1 h02 hl2 heq
    obtain ⟨k1, hh1, hres1, hlo1, hhi1⟩ :=
      resolveP_found inF tgF events 0 idx1 hpos (by omega) (by omega)
    obtain ⟨k2, hh2, hres2, hlo2, hhi2⟩ :=
      resolveP_found inF tgF events 0 idx2 hpos (by omega) (by omega)
    simp only [getItemResolve] at heq
    rw [if_pos hl1, if_pos hl2, hres1, hres2] at heq
    simp only [Except.ok.injEq, Option.some.injEq, Prod.mk.injEq] at heq
    obtain ⟨hk, -, hoo⟩ := heq
    subst hk
    omega
  · intro k h off hoff0 hoffc
    have hs0 := startOf_nonneg inF tgF events k hnn
    have hsucc := startOf_succ inF tgF events k h
    have hmono := startOf_mono inF tgF events (k + 1) events.length hnn h
    have hlt : startOf inF tgF events k + off < totalFrames inF tgF events := by omega
    have h0 : 0 ≤ startOf inF tgF events k + off := by omega
    obtain ⟨k2, h2, hres, hlo2, hhi2⟩ :=
      resolveP_found inF tgF events 0 (startOf inF tgF events k + off) hpos
        (by omega) (by omega)
    have hsucc2 := startOf_succ inF tgF events k2 h2
    have hk2k : k2 = k :=
      startOf_interval_uniq inF tgF events hpos k2 k
        (startOf inF tgF events k + off) h2 h (by omega) (by omega)
        (by omega) (by omega)
    subst hk2k
    refine ⟨h0, hlt, ?_⟩
    rw [getItemResolve, if_pos hlt, hres]
    have hget : events.get ⟨k2, h2⟩ = events.get ⟨k2, h⟩ := rfl
    rw [hget]
    have hoe : startOf inF tgF events k2 + off - (0 + startOf inF tgF events k2) = off := by
      ring
    rw [hoe]

/-- C1 witness: the two-event scenario dataset has all counts positive,
and the theorem applies to it (its first clause shown). -/
theorem c1_index_table_bijection_witness :
    (∀ e ∈ [evA, evB], 0 < eventCount 3 2 e) ∧
    (buildIdx 3 2 [evA, evB] 0).length = [evA, evB].length := by
  have hp : ∀ e ∈ [evA, evB], 0 < eventCount 3 2 e := by
    intro e he
    simp only [List.mem_cons, List.not_mem_nil, or_false] at he
    rcases he with rfl | rfl <;> rw [eventCount_tdiv] <;> decide
  exact ⟨hp, (c1_index_table_bijection 3 2 [evA, evB] hp).1⟩


/-- C2 counterexample: an event whose adjusted cancel time lies 5
minutes before its issue time (issue 0, cancel 35, window length 5, so
the adjusted span is -5 minutes).  int() truncation toward zero makes
the construction count 1 window, while the floor formula of the claim
gives 0, so the claimed equality fails at this event. -/
theorem c2_count_formula_counterexample :
    eventCount 3 2 ⟨0, 35⟩ = 1 ∧ specValidCount 3 2 ⟨0, 35⟩ = 0 ∧
    eventCount 3 2 ⟨0, 35⟩ ≠ specValidCount 3 2 ⟨0, 35⟩ := by
  refine ⟨by rw [eventCount_tdiv]; decide, by decide, ?_⟩
  rw [eventCount_tdiv]
  decide

/-- C2 (amended): the construction count equals
floor((cancel - (L-1)*step - issue)/step) + 1 whenever the adjusted
cancel time is not earlier than the issue time (or, more generally,
whenever the adjusted span is a whole number of steps); and in the
concrete scenario (A spanning 2 hours, B spanning 1 hour,
input_frames=3, target_frames=2) A has 9 valid windows, B has 3,
total_samples is 12, index 9 resolves to B at offset 0, index 11 to B
at offset 2, and index 12 errors. -/
theorem c2_count_formula_amended :
    (∀ (inF tgF : Nat) (e : Event),
      (e.issue ≤ e.cancel - 10 * ((inF : Int) + (tgF : Int) - 1) ∨
        (10 : Int) ∣ (e.cancel - e.issue - 10 * ((inF : Int) + (tgF : Int) - 1))) →
      eventCount inF tgF e = specValidCount inF tgF e) ∧
    eventCount 3 2 evA = 9 ∧ eventCount 3 2 evB = 3 ∧
    totalFrames 3 2 [evA, evB] = 12 ∧
    getItemResolve 3 2 [evA, evB] 9 = Except.ok (some (1, evB, 0)) ∧
    getItemResolve 3 2 [evA, evB] 11 = Except.ok (some (1, evB, 2)) ∧
    getItemResolve 3 2 [evA, evB] 12 = Except.error PyErr.indexOutOfRange := by
  refine ⟨?_, ?_, ?_, ?_, ?_, ?_, ?_⟩
  · intro inF tgF e h
    rw [eventCount_tdiv]
    unfold specValidCount
    rcases h with h | ⟨m, hm⟩
    · rw [Int.tdiv_eq_ediv (by omega) (by norm_num)]
    · rw [hm, Int.mul_tdiv_cancel_left _ (by norm_num),
        Int.mul_ediv_cancel_left _ (by norm_num)]
  · rw [eventCount_tdiv]; decide
  · rw [eventCount_tdiv]; decide
  · simp only [totalFrames, List.map_cons, List.map_nil, List.sum_cons,
      List.sum_nil, eventCount_tdiv]
    decide
  · simp only [getItemResolve, totalFrames, List.map_cons, List.map_nil,
      List.sum_cons, List.sum_nil, buildIdx, resolveP, eventCount_tdiv]
    decide
  · simp only [getItemResolve, totalFrames, List.map_cons, List.map_nil,
      List.sum_cons, List.sum_nil, buildIdx, resolveP, eventCount_tdiv]
    decide
  · simp only [getItemResolve, totalFrames, List.map_cons, List.map_nil,
      List.sum_cons, List.sum_nil, buildIdx, resolveP, eventCount_tdiv]
    decide

/-- C2 witness: the amended formula applied to event A, whose adjusted
cancel time is after its issue time. -/
theorem c2_count_formula_amended_witness :
    (evA.issue ≤ evA.cancel - 10 * ((3 : Int) + (2 : Int) - 1) ∨
      (10 : Int) ∣ (evA.cancel - evA.issue - 10 * ((3 : Int) + (2 : Int) - 1))) ∧
    eventCount 3 2 evA = specValidCount 3 2 evA := by
  have h : evA.issue ≤ evA.cancel - 10 * ((3 : Int) + (2 : Int) - 1) ∨
      (10 : Int) ∣ (evA.cancel - evA.issue - 10 * ((3 : Int) + (2 : Int) - 1)) :=
    Or.inl (by decide)
  exact ⟨h, c2_count_formula_amended.1 3 2 evA (by exact_mod_cast h)⟩

/-- C3 counterexample: with the two-event scenario dataset, a lookup at
index -1 does not fail: the assertion only checks the upper bound, the
scan resolves -1 to the first event with local offset -1, and no error
of any kind is returned. -/
theorem c3_negative_index_counterexample :
    getItemResolve 3 2 [evA, evB] (-1) = Except.ok (some (0, evA, -1)) ∧
    ∀ err : PyErr, getItemResolve 3 2 [evA, evB] (-1) ≠ Except.error err := by
  have h1 : getItemResolve 3 2 [evA, evB] (-1) = Except.ok (some (0, evA, -1)) := by
    simp only [getItemResolve, totalFrames, List.map_cons, List.map_nil,
      List.sum_cons, List.sum_nil, buildIdx, resolveP, eventCount_tdiv]
    decide
  refine ⟨h1, ?_⟩
  intro err hcontra
  rw [h1] at hcontra
  exact Except.noConfusion hcontra

/-- C3 (amended): every index at or above total_samples fails with the
index-out-of-range assertion, but a negative index does not fail: when
the counts are positive, the assertion (which checks only the upper
bound) passes and the scan resolves any idx < 0 to the first selected
event with negative local offset idx. -/
theorem c3_bounds_amended (inF tgF : Nat) (events : List Event) (idx : Int) :
    (totalFrames inF tgF events ≤ idx →
      getItemResolve inF tgF events idx = Except.error PyErr.indexOutOfRange) ∧
    (∀ e0 rest, events = e0 :: rest → idx < 0 →
      (∀ e ∈ events, 0 < eventCount inF tgF e) →
      getItemResolve inF tgF events idx = Except.ok (some (0, e0, idx))) := by
  constructor
  · intro h
    rw [getItemResolve, if_neg (by omega)]
  · rintro e0 rest rfl hneg hpos
    have hnn : ∀ e ∈ e0 :: rest, 0 ≤ eventCount inF tgF e :=
      fun e he => le_of_lt (hpos e he)
    have htot : 0 ≤ totalFrames inF tgF (e0 :: rest) := by
      rw [← startOf_length_eq_total inF tgF (e0 :: rest)]
      exact startOf_nonneg inF tgF (e0 :: rest) (e0 :: rest).length hnn
    have hpos0 : 0 < eventCount inF tgF e0 := hpos e0 (List.mem_cons_self e0 rest)
    rw [getItemResolve, if_pos (by omega)]
    show Except.ok (resolveP ((e0, 0, 0 + eventCount inF tgF e0 - 1) :: _) idx) = _
    rw [resolveP, if_neg (by omega)]
    have hz : idx - (0 : Int) = idx := by ring
    rw [hz]

/-- C3 witness: the amended statement applied to the two-event scenario
dataset at indices 12 (= total_samples, fails) and -1 (succeeds with
offset -1). -/
theorem c3_bounds_amended_witness :
    getItemResolve 3 2 [evA, evB] 12 = Except.error PyErr.indexOutOfRange ∧
    getItemResolve 3 2 [evA, evB] (-1) = Except.ok (some (0, evA, -1)) := by
  have hp : ∀ e ∈ [evA, evB], 0 < eventCount 3 2 e := by
    intro e he
    simp only [List.mem_cons, List.not_mem_nil, or_false] at he
    rcases he with rfl | rfl <;> rw [eventCount_tdiv] <;> decide
  have ht : totalFrames 3 2 [evA, evB] ≤ 12 := by
    simp only [totalFrames, List.map_cons, List.map_nil, List.sum_cons,
      List.sum_nil, eventCount_tdiv]
    decide
  exact ⟨(c3_bounds_amended 3 2 [evA, evB] 12).1 ht,
    (c3_bounds_amended 3 2 [evA, evB] (-1)).2 evA [evB] rfl (by decide) hp⟩


/-- C5: for every population size n and every requested count (explicit
trainNum within bounds, or the default complementary split), the
training selection followed by the testing selection is exactly the
seeded permutation (so the two selections are fully determined by the
permutation — hence by the fixed seed and n — and the count), the two
selections are disjoint, and together they are a permutation of the
whole population [0, n). -/
theorem c5_split_partition (n : Nat) (perm : List Nat) (trainNum : Option Nat)
    (hperm : perm.Perm (List.range n))
    (hassert : ∀ t ∈ trainNum, t ≤ n) :
    selectedIdx perm n true trainNum ++ selectedIdx perm n false trainNum = perm ∧
    List.Disjoint (selectedIdx perm n true trainNum)
      (selectedIdx perm n false trainNum) ∧
    (selectedIdx perm n true trainNum ++ selectedIdx perm n false trainNum).Perm
      (List.range n) := by
  have hnd : perm.Nodup := (hperm.nodup_iff).mpr (List.nodup_range n)
  have key : ∀ t : Nat,
      perm.take t ++ perm.drop t = perm ∧
      List.Disjoint (perm.take t) (perm.drop t) ∧
      (perm.take t ++ perm.drop t).Perm (List.range n) := by
    intro t
    refine ⟨List.take_append_drop t perm, List.disjoint_take_drop hnd (le_refl t), ?_⟩
    rw [List.take_append_drop t perm]
    exact hperm
  cases trainNum with
  | none => exact key (splitCount n)
  | some t => exact key t

/-- C5 witness: a concrete permutation of a population of four events
with explicit count 3. -/
theorem c5_split_partition_witness :
    (([2, 0, 3, 1] : List Nat).Perm (List.range 4) ∧ ∀ t ∈ some 3, t ≤ 4) ∧
    selectedIdx [2, 0, 3, 1] 4 true (some 3) ++
      selectedIdx [2, 0, 3, 1] 4 false (some 3) = [2, 0, 3, 1] := by
  have hm : ∀ t ∈ some 3, t ≤ 4 := by
    intro t ht
    simp only [Option.mem_def, Option.some.injEq] at ht
    omega
  exact ⟨⟨by decide, hm⟩,
    (c5_split_partition 4 [2, 0, 3, 1] (some 3) (by decide) hm).1⟩

/-- C4: an event 20 minutes long with window length 5 (adjusted cancel
20 - 40 = -20 minutes, before the issue time) is not rejected at
construction: the loop silently records the negative valid-window count
-1 in the index table (start 0, end -2) and total_frames becomes -1.
This evaluates the code at the failing input of the claim. -/
theorem c4_negative_count_recorded :
    eventCount 3 2 ⟨0, 20⟩ = -1 ∧
    buildIdx 3 2 [⟨0, 20⟩] 0 = [(⟨0, 20⟩, 0, -2)] ∧
    totalFrames 3 2 [⟨0, 20⟩] = -1 := by
  refine ⟨by rw [eventCount_tdiv]; decide, ?_, ?_⟩
  · simp only [buildIdx, eventCount_tdiv]
    decide
  · simp only [totalFrames, List.map_cons, List.map_nil, List.sum_cons,
      List.sum_nil, eventCount_tdiv]
    decide

/-- C6: with grid channels enabled, an input frame has the RAD field at
channel 0 and the X/Y grids at channels 1 and 2, but the radar_map block
does not advance the channel counter after writing the RAD field: the
X grid overwrites channel 0 (clobbering the RAD data, here 7, with the
column index), the Y grid lands in channel 1, and channel 2 keeps its
zeros — the claimed layout fails on every grid-enabled sample. -/
theorem c6_radar_map_channel_overwrite :
    (assembleSample cfg6 rd6 0 0).inputs 0 0 0 1 = 7 ∧
    (assembleSample cfg6 rd6 0 0).inputs 0 1 0 1 = 1 ∧
    (assembleSample cfg6 rd6 0 0).inputs 0 2 1 0 = 1 ∧
    (assembleSample cfg6 rd6 0 0).radar_map 0 0 1 = 1 ∧
    (assembleSample cfg6 rd6 0 0).radar_map 0 0 1 ≠ 7 ∧
    (assembleSample cfg6 rd6 0 0).radar_map 1 0 1 = 0 ∧
    (assembleSample cfg6 rd6 0 0).radar_map 2 1 0 = 0 := by
  refine ⟨?_, ?_, ?_, ?_, ?_, ?_, ?_⟩ <;>
    simp [assembleSample, inputFrame, radarMapBuild, writeCh, gridX, gridY,
      cfg6, rd6]

/-- C7: Normalize.__call__ never returns a sample: its return statement
evaluates the unbound name height, so every call raises NameError, for
every stats object and every input sample — contradicting the claim
that normalize returns a Sample with the height field passed through. -/
theorem c7_normalize_always_raises (args : NormalizeArgs) (s : Sample) :
    normalizeCall args s = Except.error PyErr.nameError ∧
    ∀ ns : NSample, normalizeCall args s ≠ Except.ok ns := by
  refine ⟨rfl, ?_⟩
  intro ns h
  have h1 : normalizeCall args s = Except.error PyErr.nameError := rfl
  rw [h1] at h
  exact Except.noConfusion h

/-- C8: with degenerate stats max_RAD = min_RAD = 5, Normalize performs
the divisions anyway — the normalized input, radar-map and target
entries are non-finite (division by the zero range) — and no
InvalidArgument is ever raised: the call fails only with the unrelated
NameError of the return statement. -/
theorem c8_degenerate_stats_not_rejected :
    normalizeCall argsEq sample0 = Except.error PyErr.nameError ∧
    (∀ s : Sample, normalizeCall argsEq s ≠ Except.error PyErr.invalidArgument) ∧
    normInputs argsEq sample0.inputs 0 0 0 0 = none ∧
    normRadarMap argsEq sample0.radar_map 0 0 0 = none ∧
    normTargets argsEq sample0.targets 0 0 0 = none := by
  refine ⟨rfl, ?_, ?_, ?_, ?_⟩
  · intro s h
    have h1 : normalizeCall argsEq s = Except.error PyErr.nameError := rfl
    rw [h1] at h
    injection h with h2
    exact PyErr.noConfusion h2
  · norm_num [normInputs, numpyDiv, argsEq, sample0]
  · norm_num [normRadarMap, numpyDiv, argsEq, sample0]
  · norm_num [normTargets, numpyDiv, argsEq, sample0]

/-- C9 (amended): the only instance attribute __getitem__ writes is
self.sample, which is set to exactly the (possibly transformed) sample
that is returned; when the index assertion fails, or the scan falls
through, the instance state is unchanged. -/
theorem c9_state_write_amended (cfg : TyConfig) (rd : Readers)
    (transform : Option (Sample → Sample)) (events : List Event)
    (st : DState) (idx : Int) :
    (totalFrames cfg.input_frames cfg.target_frames events ≤ idx →
      getItemFull cfg rd transform events st idx =
        (st, Except.error PyErr.indexOutOfRange)) ∧
    (∀ (k : Nat) (e : Event) (off : Int),
      idx < totalFrames cfg.input_frames cfg.target_frames events →
      resolveP (buildIdx cfg.input_frames cfg.target_frames events 0) idx =
        some (k, e, off) →
      ∃ s : Sample,
        s = (match transform with
             | some f => f (assembleSample cfg rd e.issue off)
             | none => assembleSample cfg rd e.issue off) ∧
        getItemFull cfg rd transform events st idx =
          (⟨some s⟩, Except.ok (some s))) ∧
    (idx < totalFrames cfg.input_frames cfg.target_frames events →
      resolveP (buildIdx cfg.input_frames cfg.target_frames events 0) idx = none →
      getItemFull cfg rd transform events st idx = (st, Except.ok none)) := by
  refine ⟨?_, ?_, ?_⟩
  · intro h
    rw [getItemFull, if_neg (by omega)]
  · intro k e off hlt hres
    refine ⟨_, rfl, ?_⟩
    rw [getItemFull, if_pos hlt, hres]
  · intro hlt hres
    rw [getItemFull, if_pos hlt, hres]

/-- C9 counterexample: after a successful __getitem__ call on a fresh
dataset, the instance attribute sample holds exactly the assembled
sample — the dataset does retain the assembled sample, contradicting
the claim that no field retains it (and there is no terrain cache
field at all). -/
theorem c9_sample_retained_counterexample :
    (getItemFull cfg6 rd6 none [evA] ⟨none⟩ 0).1.sample =
      some (assembleSample cfg6 rd6 0 0) ∧
    (getItemFull cfg6 rd6 none [evA] ⟨none⟩ 0).1.sample ≠ none := by
  have hres : resolveP (buildIdx cfg6.input_frames cfg6.target_frames [evA] 0) 0 =
      some (0, evA, 0) := by
    show resolveP (buildIdx 3 2 [evA] 0) 0 = some (0, evA, 0)
    simp only [buildIdx, resolveP, eventCount_tdiv]
    decide
  have hlt : (0 : Int) < totalFrames cfg6.input_frames cfg6.target_frames [evA] := by
    show (0 : Int) < totalFrames 3 2 [evA]
    simp only [totalFrames, List.map_cons, List.map_nil, List.sum_cons,
      List.sum_nil, eventCount_tdiv]
    decide
  have hg : getItemFull cfg6 rd6 none [evA] ⟨none⟩ 0 =
      (⟨some (assembleSample cfg6 rd6 evA.issue 0)⟩,
        Except.ok (some (assembleSample cfg6 rd6 evA.issue 0))) := by
    rw [getItemFull, if_pos hlt, hres]
  rw [hg]
  exact ⟨rfl, by simp⟩

/-- C9 witness: the amended statement applied to a one-event dataset,
at the failing index 9 (= total_samples) and the succeeding index 0. -/
theorem c9_state_write_amended_witness :
    getItemFull cfg6 rd6 none [evA] ⟨none⟩ 9 =
      (⟨none⟩, Except.error PyErr.indexOutOfRange) ∧
    ∃ s : Sample,
      getItemFull cfg6 rd6 none [evA] ⟨none⟩ 0 = (⟨some s⟩, Except.ok (some s)) := by
  have h9 : totalFrames cfg6.input_frames cfg6.target_frames [evA] ≤ 9 := by
    show totalFrames 3 2 [evA] ≤ 9
    simp only [totalFrames, List.map_cons, List.map_nil, List.sum_cons,
      List.sum_nil, eventCount_tdiv]
    decide
  have hres : resolveP (buildIdx cfg6.input_frames cfg6.target_frames [evA] 0) 0 =
      some (0, evA, 0) := by
    show resolveP (buildIdx 3 2 [evA] 0) 0 = some (0, evA, 0)
    simp only [buildIdx, resolveP, eventCount_tdiv]
    decide
  have hlt : (0 : Int) < totalFrames cfg6.input_frames cfg6.target_frames [evA] := by
    show (0 : Int) < totalFrames 3 2 [evA]
    simp only [totalFrames, List.map_cons, List.map_nil, List.sum_cons,
      List.sum_nil, eventCount_tdiv]
    decide
  constructor
  · exact (c9_state_write_amended cfg6 rd6 none [evA] ⟨none⟩ 9).1 h9
  · obtain ⟨s, -, hgi⟩ :=
      (c9_state_write_amended cfg6 rd6 none [evA] ⟨none⟩ 0).2.1 0 evA 0 hlt hres
    exact ⟨s, hgi⟩

/-- C10: the assert condition type(x) == pd.Series or list of
Normalize.__init__ is true for every type of the supplied value: the
right operand of `or` is the class object list, which is always truthy,
so the two assertions can never fire. -/
theorem c10_type_check_always_true (t1 t2 : PyType) :
    statsTypeCheckCond t1 = true ∧ statsTypeCheckCond t2 = true := by
  have h : ∀ t : PyType, statsTypeCheckCond t = true := by
    intro t
    cases t <;> rfl
  exact ⟨h t1, h t2⟩
